import Mathlib

/-!
Shallow embedding of the todo-api-ts service (src/index.ts, src/types.ts,
src/validators.ts) and proofs about its behaviour.

Modelling choices:
* The in-memory store `const todos: Todo[]` is a `List Todo`; handlers are
  pure functions `List Todo → … → Result × List Todo`.
* ISO-8601 timestamps stay `String`s; JS `<`/`>` on strings is lexicographic
  code-unit order, matched by `String.lt` on these ASCII strings.
* JSON bodies are `RawBody` records whose fields are `JVal` (absent / null /
  value), mirroring the undefined-vs-null distinction the zod schemas and the
  PATCH merge rely on.
* `Array.prototype.sort` (stable, ordered by the comparator) is modelled by
  `List.mergeSort` with `le a b := comparator a b ≤ 0`.
-/

namespace TodoApi

/-- `TodoStatus` from src/types.ts: `'pending' | 'done'`. -/
inductive Status where
  | pending
  | done
deriving DecidableEq, Repr

/-- The `Todo` interface from src/types.ts. Optional fields are `Option`s. -/
structure Todo where
  id : String
  title : String
  description : Option String
  status : Status
  createdAt : String
  updatedAt : String
  dueDate : Option String
  priority : Option Nat
deriving DecidableEq, Repr

/-- A JSON field position: absent from the object, explicit `null`, or a value. -/
inductive JVal (α : Type) where
  | absent
  | null
  | val (a : α)
deriving DecidableEq, Repr

/-- An untrusted request body holding the keys the schemas look at. -/
structure RawBody where
  title : JVal String
  description : JVal String
  status : JVal String
  dueDate : JVal String
  priority : JVal Int
deriving DecidableEq, Repr

/-- Consume exactly `n` decimal digits. -/
def digits : Nat → List Char → Option (List Char)
  | 0, cs => some cs
  | _ + 1, [] => none
  | n + 1, c :: cs => if c.isDigit then digits n cs else none

/-- Consume one expected character. -/
def expectChar (c : Char) : List Char → Option (List Char)
  | [] => none
  | d :: cs => if d = c then some cs else none

/-- After `YYYY-MM-DDTHH:MM:SS`, accept `Z` or `.digits+Z`. -/
def isDatetimeTail : List Char → Bool
  | ['Z'] => true
  | '.' :: rest =>
      decide (1 ≤ (rest.takeWhile (·.isDigit)).length)
        && rest.dropWhile (·.isDigit) == ['Z']
  | _ => false

/-- zod's `z.string().datetime()` (v3 default): the regex
`^\d«4»-\d«2»-\d«2»T\d«2»:\d«2»:\d«2»(\.\d+)?Z$`. -/
def isDatetimeString (s : String) : Bool :=
  match (do
    let r ← digits 4 s.data
    let r ← expectChar '-' r
    let r ← digits 2 r
    let r ← expectChar '-' r
    let r ← digits 2 r
    let r ← expectChar 'T' r
    let r ← digits 2 r
    let r ← expectChar ':' r
    let r ← digits 2 r
    let r ← expectChar ':' r
    digits 2 r : Option (List Char)) with
  | none => false
  | some rest => isDatetimeTail rest

/-- The output type of `createTodoSchema.parse`. -/
structure CreateInput where
  title : String
  description : Option String
  dueDate : Option String
  priority : Option Nat
deriving DecidableEq, Repr

/-- `createTodoSchema` from src/validators.ts: required `title` (1–200 chars),
optional `description` (≤2000), optional `dueDate` (datetime string), optional
`priority` ∈ «1,2,3». `none` is a thrown `ZodError`. -/
def parseCreate (b : RawBody) : Option CreateInput := do
  let title ← match b.title with
    | .val s => if 1 ≤ s.length ∧ s.length ≤ 200 then some s else none
    | _ => none
  let description ← match b.description with
    | .absent => some none
    | .null => none
    | .val s => if s.length ≤ 2000 then some (some s) else none
  let dueDate ← match b.dueDate with
    | .absent => some none
    | .null => none
    | .val s => if isDatetimeString s then some (some s) else none
  let priority ← match b.priority with
    | .absent => some none
    | .null => none
    | .val n => if n = 1 ∨ n = 2 ∨ n = 3 then some (some n.toNat) else none
  pure ⟨title, description, dueDate, priority⟩

/-- The output type of `updateTodoSchema.parse`: every field optional, with
`dueDate` and `priority` also accepting explicit `null` (the clear sentinel),
kept three-way as `JVal`. -/
structure UpdatePatch where
  title : Option String
  description : Option String
  status : Option Status
  dueDate : JVal String
  priority : JVal Nat
deriving DecidableEq, Repr

/-- `updateTodoSchema` from src/validators.ts. -/
def parseUpdate (b : RawBody) : Option UpdatePatch := do
  let title ← match b.title with
    | .absent => some none
    | .null => none
    | .val s => if 1 ≤ s.length ∧ s.length ≤ 200 then some (some s) else none
  let description ← match b.description with
    | .absent => some none
    | .null => none
    | .val s => if s.length ≤ 2000 then some (some s) else none
  let status ← match b.status with
    | .absent => some none
    | .null => none
    | .val "pending" => some (some Status.pending)
    | .val "done" => some (some Status.done)
    | .val _ => none
  let dueDate ← match b.dueDate with
    | .absent => some JVal.absent
    | .null => some JVal.null
    | .val s => if isDatetimeString s then some (JVal.val s) else none
  let priority ← match b.priority with
    | .absent => some JVal.absent
    | .null => some JVal.null
    | .val n => if n = 1 ∨ n = 2 ∨ n = 3 then some (JVal.val n.toNat) else none
  pure ⟨title, description, status, dueDate, priority⟩

/-- The body accepted by the PUT handler: create shape plus `status`. -/
structure PutInput where
  title : String
  description : Option String
  dueDate : Option String
  priority : Option Nat
  status : Status
deriving DecidableEq, Repr

/-- The PUT handler's validation: `createTodoSchema.extend(«status:
updateTodoSchema.shape.status.default('pending')»)` applied after the handler
pre-sets `body.status = 'pending'` when the key is absent. An explicit
`status: null` reaches the union (`.default` only replaces `undefined`) and is
rejected. -/
def parsePut (b : RawBody) : Option PutInput := do
  let c ← parseCreate b
  let status ← match b.status with
    | .absent => some Status.pending
    | .null => none
    | .val "pending" => some Status.pending
    | .val "done" => some Status.done
    | .val _ => none
  pure ⟨c.title, c.description, c.dueDate, c.priority, status⟩

/-- `Array.prototype.findIndex`, as an `Option Nat` (JS returns −1 when
nothing matches). -/
def findIndex (p : Todo → Bool) : List Todo → Option Nat
  | [] => none
  | t :: ts => if p t then some 0 else (findIndex p ts).map (· + 1)

/-- Outcome of `POST /todos`. -/
inductive CreateRes where
  | badRequest
  | created (t : Todo)
deriving DecidableEq, Repr

/-- The `POST /todos` handler: validate, build the record with a fresh id,
`status = 'pending'`, `createdAt = updatedAt = now`, and push it. -/
def createTodo (todos : List Todo) (body : RawBody) (freshId now : String) :
    CreateRes × List Todo :=
  match parseCreate body with
  | none => (.badRequest, todos)
  | some input =>
      let t : Todo :=
        { id := freshId, title := input.title, description := input.description
          status := .pending, createdAt := now, updatedAt := now
          dueDate := input.dueDate, priority := input.priority }
      (.created t, todos ++ [t])

/-- Outcome of a mutating by-id endpoint (PATCH, done/pending shortcuts). -/
inductive PatchRes where
  | notFound
  | badRequest
  | ok (t : Todo)
deriving DecidableEq, Repr

/-- The merged record the PATCH handler builds:
`« ...current, ...patch, dueDate: …, priority: …, updatedAt: now »`.
The `priority` line of the source is
`patch.priority === null ? undefined : patch.priority` with no
`?? current.priority` fallback (unlike `dueDate`), so an absent `priority`
key also yields `undefined`, i.e. the field is dropped. -/
def applyPatch (current : Todo) (patch : UpdatePatch) (now : String) : Todo :=
  { id := current.id
    title := patch.title.getD current.title
    description := match patch.description with
      | some d => some d
      | none => current.description
    status := patch.status.getD current.status
    createdAt := current.createdAt
    updatedAt := now
    dueDate := match patch.dueDate with
      | .null => none
      | .val v => some v
      | .absent => current.dueDate
    priority := match patch.priority with
      | .null => none
      | .val v => some v
      | .absent => none }

/-- The `PATCH /todos/:id` handler: find the index first (404 before the body
is even validated), then validate, merge, and write back in place. -/
def patchTodo (todos : List Todo) (id : String) (body : RawBody) (now : String) :
    PatchRes × List Todo :=
  match findIndex (fun t => t.id == id) todos with
  | none => (.notFound, todos)
  | some idx =>
    match parseUpdate body with
    | none => (.badRequest, todos)
    | some patch =>
      match todos.get? idx with
      | none => (.notFound, todos)
      | some current =>
          let updated := applyPatch current patch now
          (.ok updated, todos.set idx updated)

/-- Outcome of `PUT /todos/:id`: 400, 201 (created via PUT) or 200 (replaced). -/
inductive PutRes where
  | badRequest
  | created (t : Todo)
  | replaced (t : Todo)
deriving DecidableEq, Repr

/-- The `PUT /todos/:id` handler: validate the full create shape (status
defaulted), then either insert a new record carrying the supplied id with
`createdAt = updatedAt = now` (201) or overwrite in place keeping `id` and
`createdAt` (200). -/
def putTodo (todos : List Todo) (id : String) (body : RawBody) (now : String) :
    PutRes × List Todo :=
  match parsePut body with
  | none => (.badRequest, todos)
  | some input =>
    match findIndex (fun t => t.id == id) todos with
    | none =>
        let t : Todo :=
          { id := id, title := input.title, description := input.description
            status := input.status, createdAt := now, updatedAt := now
            dueDate := input.dueDate, priority := input.priority }
        (.created t, todos ++ [t])
    | some idx =>
      match todos.get? idx with
      | none => (.badRequest, todos)
      | some current =>
          let t : Todo :=
            { id := current.id, title := input.title
              description := input.description, status := input.status
              createdAt := current.createdAt, updatedAt := now
              dueDate := input.dueDate, priority := input.priority }
          (.replaced t, todos.set idx t)

/-- Outcome of `DELETE /todos/:id`. -/
inductive DeleteRes where
  | notFound
  | ok (t : Todo)
deriving DecidableEq, Repr

/-- The `DELETE /todos/:id` handler: find, splice out, return the removed
record. -/
def deleteTodo (todos : List Todo) (id : String) : DeleteRes × List Todo :=
  match findIndex (fun t => t.id == id) todos with
  | none => (.notFound, todos)
  | some idx =>
    match todos.get? idx with
    | none => (.notFound, todos)
    | some removed => (.ok removed, todos.eraseIdx idx)

/-- The `POST /todos/:id/done` and `/pending` shortcut handlers: find the
record, set `status`, refresh `updatedAt`. -/
def setStatusTodo (todos : List Todo) (id : String) (st : Status) (now : String) :
    PatchRes × List Todo :=
  match findIndex (fun t => t.id == id) todos with
  | none => (.notFound, todos)
  | some idx =>
    match todos.get? idx with
    | none => (.notFound, todos)
    | some t =>
        let t' := { t with status := st, updatedAt := now }
        (.ok t', todos.set idx t')

/-- The `sortBy` query values: `z.enum(['createdAt','updatedAt','dueDate','priority'])`. -/
inductive SortBy where
  | createdAt
  | updatedAt
  | dueDate
  | priority
deriving DecidableEq, Repr

/-- The `order` query values. -/
inductive SortOrder where
  | asc
  | desc
deriving DecidableEq, Repr

/-- A parsed `listQuerySchema` result with the handler's defaults already
applied (`sortBy = 'createdAt'`, `order = 'desc'`, `page = 1`, `pageSize = 20`). -/
structure ListQuery where
  q : Option String
  status : Option Status
  priority : Option Nat
  sortBy : SortBy
  order : SortOrder
  page : Nat
  pageSize : Nat
deriving DecidableEq, Repr

/-- `needle` starts the list `hay`. -/
def startsWithList : List Char → List Char → Bool
  | [], _ => true
  | _ :: _, [] => false
  | a :: as, b :: bs => a == b && startsWithList as bs

/-- JS `String.prototype.includes` on char lists: some suffix of `hay` starts
with `needle`. -/
def containsList : List Char → List Char → Bool
  | [], needle => needle.isEmpty
  | c :: t, needle => startsWithList needle (c :: t) || containsList t needle

/-- `hay.includes(needle)` on strings. -/
def strIncludes (hay needle : String) : Bool := containsList hay.data needle.data

/-- The `q` text filter predicate: case-insensitive substring match on
`title` or `description` (missing description treated as `''`). -/
def matchesText (needle : String) (t : Todo) : Bool :=
  strIncludes t.title.toLower needle
    || strIncludes (t.description.getD "").toLower needle

/-- `if (q) result = result.filter(…)`: the text filter stage, skipped for a
missing or falsy (empty) `q`. -/
def filterQ (q? : Option String) (l : List Todo) : List Todo :=
  match q? with
  | none => l
  | some q => if q.isEmpty then l else l.filter (matchesText q.toLower)

/-- `if (status) result = result.filter(…)`. -/
def filterStatus (status? : Option Status) (l : List Todo) : List Todo :=
  match status? with
  | none => l
  | some s => l.filter (fun t => t.status == s)

/-- `if (priority) result = result.filter(…)`. -/
def filterPriority (priority? : Option Nat) (l : List Todo) : List Todo :=
  match priority? with
  | none => l
  | some p => l.filter (fun t => t.priority == some p)

/-- The filter pipeline of `GET /todos`: text filter, then `status`, then
`priority`. -/
def filterTodos (query : ListQuery) (todos : List Todo) : List Todo :=
  filterPriority query.priority (filterStatus query.status (filterQ query.q todos))

/-- A sort-key value: the string timestamps, or the numeric priority. -/
inductive SVal where
  | str (s : String)
  | num (n : Nat)
deriving DecidableEq, Repr

/-- The dynamic field lookup `(a as any)[sortBy]`, `none` when the field is
absent (`== null` in the comparator). `createdAt`/`updatedAt` are required
fields, so they are always present. -/
def getSortVal : SortBy → Todo → Option SVal
  | .createdAt, t => some (.str t.createdAt)
  | .updatedAt, t => some (.str t.updatedAt)
  | .dueDate, t => t.dueDate.map .str
  | .priority, t => t.priority.map .num

/-- Whether the record has the sort field. -/
def hasSortVal (sb : SortBy) (t : Todo) : Bool := (getSortVal sb t).isSome

/-- The direction multiplier `order === 'asc' ? 1 : -1`. -/
def dirOf : SortOrder → Int
  | .asc => 1
  | .desc => -1

/-- The typed branch of the comparator: `(av - bv)` for `priority` (the `num`
case), `av < bv ? -1 : av > bv ? 1 : 0` for the string fields. A mixed pair
cannot arise (`getSortVal` is homogeneous per sort key). -/
def cmpSVal : SVal → SVal → Int
  | .num x, .num y => (x : Int) - (y : Int)
  | .str x, .str y => if x < y then -1 else if y < x then 1 else 0
  | _, _ => 0

/-- The null checks of the comparator (`av == null`, `bv == null`): nulls
last regardless of direction, then the typed comparison times the direction. -/
def cmpOptSVal (ord : SortOrder) : Option SVal → Option SVal → Int
  | none, none => 0
  | none, some _ => 1
  | some _, none => -1
  | some av, some bv => cmpSVal av bv * dirOf ord

/-- The sort comparator of `GET /todos`. -/
def cmpTodos (sb : SortBy) (ord : SortOrder) (a b : Todo) : Int :=
  cmpOptSVal ord (getSortVal sb a) (getSortVal sb b)

/-- `comparator(a, b) ≤ 0`: the "`a` need not come after `b`" relation the
sort establishes. -/
def leTodos (sb : SortBy) (ord : SortOrder) (a b : Todo) : Bool :=
  decide (cmpTodos sb ord a b ≤ 0)

/-- `result.sort(comparator)`: stable, ordered by the comparator — modelled as
a stable merge sort on `comparator ≤ 0`. -/
def sortTodos (sb : SortBy) (ord : SortOrder) (todos : List Todo) : List Todo :=
  todos.mergeSort (leTodos sb ord)

/-- The list response envelope. -/
structure Envelope where
  data : List Todo
  page : Nat
  pageSize : Nat
  total : Nat
  totalPages : Nat
deriving DecidableEq, Repr

/-- The slice `[start, start + pageSize)` for a 1-based page number. -/
def pageSlice (l : List Todo) (pageSize page : Nat) : List Todo :=
  (l.drop ((page - 1) * pageSize)).take pageSize

/-- The query pipeline of `GET /todos`: copy, filter, sort, count, paginate.
`Math.ceil(total / pageSize)` on naturals (with `pageSize ≥ 1`) is
`(total + pageSize - 1) / pageSize`. -/
def queryTodos (todos : List Todo) (query : ListQuery) : Envelope :=
  let result := filterTodos query todos
  let result := sortTodos query.sortBy query.order result
  let total := result.length
  { data := pageSlice result query.pageSize query.page
    page := query.page
    pageSize := query.pageSize
    total := total
    totalPages := (total + query.pageSize - 1) / query.pageSize }

/-- The whole `GET /todos` handler as a state transformer: it computes the
envelope from a shallow copy and leaves the store component untouched. -/
def getTodosHandler (todos : List Todo) (query : ListQuery) :
    Envelope × List Todo :=
  (queryTodos todos query, todos)

/-- A mutating API request, as it reaches the store. -/
inductive Op where
  | createOp (body : RawBody) (freshId : String)
  | patchOp (id : String) (body : RawBody)
  | putOp (id : String) (body : RawBody)
  | deleteOp (id : String)
  | doneOp (id : String)
  | pendingOp (id : String)

/-- The store after serving one request at time `now`. -/
def applyOp (op : Op) (now : String) (todos : List Todo) : List Todo :=
  match op with
  | .createOp body freshId => (createTodo todos body freshId now).2
  | .patchOp id body => (patchTodo todos id body now).2
  | .putOp id body => (putTodo todos id body now).2
  | .deleteOp id => (deleteTodo todos id).2
  | .doneOp id => (setStatusTodo todos id .done now).2
  | .pendingOp id => (setStatusTodo todos id .pending now).2

/-- Store states reachable from the empty store under a monotone clock: the
index is the timestamp of the latest step, and each new step happens no
earlier. -/
inductive Reachable : String → List Todo → Prop where
  | init (t0 : String) : Reachable t0 []
  | step {t : String} {s : List Todo} (op : Op) {t' : String} :
      Reachable t s → t ≤ t' → Reachable t' (applyOp op t' s)

/-- Timestamp invariant: every stored record was created no later than it was
updated, and not updated after the clock. -/
def StoreInv (t : String) (s : List Todo) : Prop :=
  ∀ x ∈ s, x.createdAt ≤ x.updatedAt ∧ x.updatedAt ≤ t

/-- A stored record used by the concrete witnesses below. -/
def demoTodo : Todo :=
  { id := "a1", title := "alpha", description := some "write spec"
    status := .pending, createdAt := "2024-01-01T00:00:00Z"
    updatedAt := "2024-01-01T00:00:00Z"
    dueDate := some "2024-02-01T00:00:00Z", priority := some 2 }

/-- A body with no keys at all. -/
def emptyBody : RawBody := ⟨.absent, .absent, .absent, .absent, .absent⟩

/-- A valid create/put body: `« title: 'alpha' »`. -/
def demoCreateBody : RawBody := { emptyBody with title := .val "alpha" }

/-- An invalid body for every schema: `title` is present but empty. -/
def badBody : RawBody := { emptyBody with title := .val "" }

/-- A valid patch body: `« title: 'beta' »`. -/
def demoPatchBody : RawBody := { emptyBody with title := .val "beta" }

/-- The default list query: no filters, `sortBy = createdAt`, `order = desc`,
`page = 1`, `pageSize = 20`. -/
def demoQuery : ListQuery := ⟨none, none, none, .createdAt, .desc, 1, 20⟩

/-- What `updateTodoSchema` parses `demoPatchBody` to. -/
def demoPatch : UpdatePatch := ⟨some "beta", none, none, .absent, .absent⟩

/-- The ordering the claim asserts between two present sort-key values:
numeric for `priority`, plain string order for the timestamps, flipped for
`desc`. (Mixed constructors cannot occur for a fixed sort key.) -/
def svalLe (ord : SortOrder) : SVal → SVal → Prop
  | .num x, .num y =>
      match ord with
      | .asc => x ≤ y
      | .desc => y ≤ x
  | .str x, .str y =>
      match ord with
      | .asc => x ≤ y
      | .desc => y ≤ x
  | _, _ => True

/-- Demo record with the lowest priority. -/
def demoA : Todo := { demoTodo with id := "A", priority := some 1 }

/-- Demo record with the highest priority. -/
def demoB : Todo := { demoTodo with id := "B", priority := some 3 }

/-- Demo record with no priority. -/
def demoC : Todo := { demoTodo with id := "C", priority := none }

/-- A store that is already in priority-ascending order (nulls last). -/
def demoList : List Todo := [demoA, demoB, demoC]

/-! ### Helper lemmas about `findIndex` and the filter stages -/

theorem findIndex_eq_none_iff {p : Todo → Bool} {l : List Todo} :
    findIndex p l = none ↔ ∀ t ∈ l, ¬ p t := by
  induction l with
  | nil => simp [findIndex]
  | cons a ts ih =>
    by_cases h : p a
    · simp [findIndex, h]
    · simp [findIndex, h, Option.map_eq_none', ih]

theorem findIndex_get? {p : Todo → Bool} {l : List Todo} {i : Nat}
    (h : findIndex p l = some i) : ∃ r, l.get? i = some r ∧ p r := by
  induction l generalizing i with
  | nil => simp [findIndex] at h
  | cons a ts ih =>
    by_cases hp : p a
    · simp [findIndex, hp] at h
      subst h
      exact ⟨a, rfl, hp⟩
    · simp [findIndex, hp, Option.map_eq_some'] at h
      obtain ⟨j, hj, rfl⟩ := h
      obtain ⟨r, hr, hpr⟩ := ih hj
      exact ⟨r, by simpa using hr, hpr⟩

theorem findIndex_eraseIdx_none {p : Todo → Bool} {l : List Todo} {i : Nat}
    (h : findIndex p l = some i) (hc : l.countP p ≤ 1) :
    findIndex p (l.eraseIdx i) = none := by
  induction l generalizing i with
  | nil => simp [findIndex] at h
  | cons a ts ih =>
    by_cases hp : p a
    · simp [findIndex, hp] at h
      subst h
      rw [List.countP_cons_of_pos _ _ hp] at hc
      have hz : ts.countP p = 0 := by omega
      rw [show (a :: ts).eraseIdx 0 = ts from rfl, findIndex_eq_none_iff]
      intro t ht
      simpa using List.countP_eq_zero.mp hz t ht
    · simp [findIndex, hp, Option.map_eq_some'] at h
      obtain ⟨j, hj, rfl⟩ := h
      rw [List.countP_cons_of_neg _ _ hp] at hc
      have := ih hj hc
      simp [List.eraseIdx, findIndex, hp, this]

theorem filterQ_sublist (q? : Option String) (l : List Todo) :
    List.Sublist (filterQ q? l) l := by
  unfold filterQ
  split
  · exact List.Sublist.refl _
  · split
    · exact List.Sublist.refl _
    · exact List.filter_sublist _

theorem filterStatus_sublist (status? : Option Status) (l : List Todo) :
    List.Sublist (filterStatus status? l) l := by
  unfold filterStatus
  split
  · exact List.Sublist.refl _
  · exact List.filter_sublist _

theorem filterPriority_sublist (priority? : Option Nat) (l : List Todo) :
    List.Sublist (filterPriority priority? l) l := by
  unfold filterPriority
  split
  · exact List.Sublist.refl _
  · exact List.filter_sublist _

theorem filterTodos_sublist (query : ListQuery) (todos : List Todo) :
    List.Sublist (filterTodos query todos) todos :=
  ((filterPriority_sublist _ _).trans (filterStatus_sublist _ _)).trans
    (filterQ_sublist _ _)

/-! ### The timestamp invariant is preserved by every operation -/

theorem applyOp_storeInv {op : Op} {now : String} {s : List Todo}
    (h : StoreInv now s) : StoreInv now (applyOp op now s) := by
  have hset : ∀ (idx : Nat) (current upd : Todo), s.get? idx = some current →
      upd.createdAt = current.createdAt → upd.updatedAt = now →
      StoreInv now (s.set idx upd) := by
    intro idx current upd hget hc hu x hx
    rcases List.mem_or_eq_of_mem_set hx with hx | rfl
    · exact h x hx
    · have hcur := h current (List.get?_mem hget)
      exact ⟨hc ▸ hu ▸ le_trans hcur.1 hcur.2, hu ▸ le_refl _⟩
  cases op with
  | createOp body freshId =>
    simp only [applyOp, createTodo]
    split
    · exact h
    · intro x hx
      rcases List.mem_append.mp hx with hx | hx
      · exact h x hx
      · rw [List.mem_singleton.mp hx]
        exact ⟨le_refl _, le_refl _⟩
  | patchOp id body =>
    simp only [applyOp, patchTodo]
    split
    · exact h
    · split
      · exact h
      · split
        · exact h
        · rename_i current hget
          exact hset _ current _ hget rfl rfl
  | putOp id body =>
    simp only [applyOp, putTodo]
    split
    · exact h
    · split
      · intro x hx
        rcases List.mem_append.mp hx with hx | hx
        · exact h x hx
        · rw [List.mem_singleton.mp hx]
          exact ⟨le_refl _, le_refl _⟩
      · split
        · exact h
        · rename_i current hget
          exact hset _ current _ hget rfl rfl
  | deleteOp id =>
    simp only [applyOp, deleteTodo]
    split
    · exact h
    · split
      · exact h
      · intro x hx
        exact h x ((List.eraseIdx_sublist _ _).subset hx)
  | doneOp id =>
    simp only [applyOp, setStatusTodo]
    split
    · exact h
    · split
      · exact h
      · rename_i t hget
        exact hset _ t _ hget rfl rfl
  | pendingOp id =>
    simp only [applyOp, setStatusTodo]
    split
    · exact h
    · split
      · exact h
      · rename_i t hget
        exact hset _ t _ hget rfl rfl

theorem reachable_storeInv {t : String} {s : List Todo} (h : Reachable t s) :
    StoreInv t s := by
  induction h with
  | init t0 => intro x hx; simp at hx
  | step op _ hle ih =>
      exact applyOp_storeInv (fun x hx => ⟨(ih x hx).1, le_trans (ih x hx).2 hle⟩)

/-! ### Comparator lemmas: the sort relation is total and transitive -/

theorem cmpSVal_antisymm (a b : SVal) : cmpSVal b a = -cmpSVal a b := by
  cases a with
  | num x =>
    cases b with
    | num y =>
      simp only [cmpSVal]
      omega
    | str t => simp [cmpSVal]
  | str s =>
    cases b with
    | num y => simp [cmpSVal]
    | str t =>
      simp only [cmpSVal]
      rcases lt_trichotomy s t with h | rfl | h
      · simp [h, asymm h]
      · simp
      · simp [h, asymm h]

theorem cmpOptSVal_antisymm (ord : SortOrder) (a b : Option SVal) :
    cmpOptSVal ord b a = -cmpOptSVal ord a b := by
  cases a with
  | none =>
    cases b with
    | none => simp [cmpOptSVal]
    | some w => simp [cmpOptSVal]
  | some v =>
    cases b with
    | none => simp [cmpOptSVal]
    | some w =>
      simp only [cmpOptSVal]
      rw [cmpSVal_antisymm]
      ring

theorem cmpTodos_antisymm (sb : SortBy) (ord : SortOrder) (a b : Todo) :
    cmpTodos sb ord b a = -cmpTodos sb ord a b :=
  cmpOptSVal_antisymm ord (getSortVal sb a) (getSortVal sb b)

theorem leTodos_total (sb : SortBy) (ord : SortOrder) :
    ∀ a b, leTodos sb ord a b || leTodos sb ord b a := by
  intro a b
  simp only [leTodos, Bool.or_eq_true, decide_eq_true_eq]
  rw [cmpTodos_antisymm]
  omega

theorem cmpSVal_str_le_iff (x y : String) :
    cmpSVal (.str x) (.str y) ≤ 0 ↔ x ≤ y := by
  simp only [cmpSVal]
  rcases lt_trichotomy x y with h | rfl | h
  · simp [h, le_of_lt h]
  · simp
  · rw [if_neg (asymm h), if_pos h]
    constructor
    · intro h1
      omega
    · intro h1
      exact absurd h1 (not_le.mpr h)

theorem cmpSVal_str_ge_iff (x y : String) :
    0 ≤ cmpSVal (.str x) (.str y) ↔ y ≤ x := by
  rw [show cmpSVal (.str x) (.str y) = -cmpSVal (.str y) (.str x) from
    cmpSVal_antisymm _ _, neg_nonneg]
  exact cmpSVal_str_le_iff y x

theorem cmpSVal_str_trans (ord : SortOrder) (x y z : String)
    (h1 : cmpSVal (.str x) (.str y) * dirOf ord ≤ 0)
    (h2 : cmpSVal (.str y) (.str z) * dirOf ord ≤ 0) :
    cmpSVal (.str x) (.str z) * dirOf ord ≤ 0 := by
  cases ord with
  | asc =>
    simp only [dirOf, mul_one] at h1 h2 ⊢
    exact (cmpSVal_str_le_iff x z).mpr
      (le_trans ((cmpSVal_str_le_iff x y).mp h1)
        ((cmpSVal_str_le_iff y z).mp h2))
  | desc =>
    simp only [dirOf, mul_neg_one, neg_nonpos] at h1 h2 ⊢
    exact (cmpSVal_str_ge_iff x z).mpr
      (le_trans ((cmpSVal_str_ge_iff y z).mp h2)
        ((cmpSVal_str_ge_iff x y).mp h1))

theorem cmpSVal_num_trans (ord : SortOrder) (x y z : Nat)
    (h1 : cmpSVal (.num x) (.num y) * dirOf ord ≤ 0)
    (h2 : cmpSVal (.num y) (.num z) * dirOf ord ≤ 0) :
    cmpSVal (.num x) (.num z) * dirOf ord ≤ 0 := by
  cases ord with
  | asc =>
    simp only [cmpSVal, dirOf, mul_one] at h1 h2 ⊢
    omega
  | desc =>
    simp only [cmpSVal, dirOf, mul_neg_one, neg_nonpos] at h1 h2 ⊢
    omega

theorem cmpTodos_trans (sb : SortBy) (ord : SortOrder) (a b c : Todo)
    (h1 : cmpTodos sb ord a b ≤ 0) (h2 : cmpTodos sb ord b c ≤ 0) :
    cmpTodos sb ord a c ≤ 0 := by
  unfold cmpTodos cmpOptSVal at h1 h2 ⊢
  cases hA : getSortVal sb a with
  | none =>
    cases hC : getSortVal sb c with
    | none => simp
    | some cv =>
      cases hB : getSortVal sb b with
      | none =>
        rw [hB, hC] at h2
        simp at h2
      | some bv =>
        rw [hA, hB] at h1
        simp at h1
  | some av =>
    cases hC : getSortVal sb c with
    | none => simp
    | some cv =>
      cases hB : getSortVal sb b with
      | none =>
        rw [hB, hC] at h2
        simp at h2
      | some bv =>
        rw [hA, hB] at h1
        rw [hB, hC] at h2
        simp only
        cases sb with
        | priority =>
          obtain ⟨x, hx, rfl⟩ := Option.map_eq_some'.mp hA
          obtain ⟨y, hy, rfl⟩ := Option.map_eq_some'.mp hB
          obtain ⟨z, hz, rfl⟩ := Option.map_eq_some'.mp hC
          exact cmpSVal_num_trans ord x y z h1 h2
        | dueDate =>
          obtain ⟨x, hx, rfl⟩ := Option.map_eq_some'.mp hA
          obtain ⟨y, hy, rfl⟩ := Option.map_eq_some'.mp hB
          obtain ⟨z, hz, rfl⟩ := Option.map_eq_some'.mp hC
          exact cmpSVal_str_trans ord x y z h1 h2
        | createdAt =>
          simp only [getSortVal, Option.some.injEq] at hA hB hC
          subst hA
          subst hB
          subst hC
          exact cmpSVal_str_trans ord _ _ _ h1 h2
        | updatedAt =>
          simp only [getSortVal, Option.some.injEq] at hA hB hC
          subst hA
          subst hB
          subst hC
          exact cmpSVal_str_trans ord _ _ _ h1 h2

theorem leTodos_trans (sb : SortBy) (ord : SortOrder) :
    ∀ a b c, leTodos sb ord a b → leTodos sb ord b c → leTodos sb ord a c := by
  intro a b c h1 h2
  simp only [leTodos, decide_eq_true_eq] at h1 h2 ⊢
  exact cmpTodos_trans sb ord a b c h1 h2

theorem sortTodos_pairwise (sb : SortBy) (ord : SortOrder) (l : List Todo) :
    (sortTodos sb ord l).Pairwise (fun a b => leTodos sb ord a b) :=
  List.sorted_mergeSort (leTodos_trans sb ord) (leTodos_total sb ord) l

/-! ### Pagination helper lemmas -/

theorem ceil_bounds (T ps : Nat) (h : 1 ≤ ps) :
    T ≤ ((T + ps - 1) / ps) * ps ∧ ((T + ps - 1) / ps) * ps < T + ps := by
  have hd : ps * ((T + ps - 1) / ps) + (T + ps - 1) % ps = T + ps - 1 :=
    Nat.div_add_mod _ _
  have hm : (T + ps - 1) % ps < ps := Nat.mod_lt _ (by omega)
  rw [Nat.mul_comm] at hd
  generalize hX : (T + ps - 1) / ps * ps = X at hd ⊢
  omega

theorem flatMap_pageSlice (l : List Todo) (ps : Nat) (n : Nat) :
    (List.range n).flatMap (fun p => pageSlice l ps (p + 1)) =
      l.take (n * ps) := by
  induction n with
  | zero => simp
  | succ n ih =>
      rw [List.range_succ, List.flatMap_append, ih]
      simp only [List.flatMap_cons, List.flatMap_nil, List.append_nil,
        pageSlice, Nat.add_sub_cancel, Nat.succ_mul, List.take_add]

/-! ### Claims -/

/-- C1 (code bug at this input): the claim says a patch that omits `priority`
leaves the record's priority unchanged, but the handler's
`priority: (patch.priority === null ? undefined : patch.priority)` has no
`?? current.priority` fallback, so the valid patch `« title: 'beta' »` applied
to a record with `priority = 2` produces a record with no priority. The other
merged fields behave as claimed at this input. -/
theorem c1_patch_omitting_priority_clears_it :
    demoTodo.priority = some 2 ∧
    parseUpdate demoPatchBody = some demoPatch ∧
    demoPatch.priority = JVal.absent ∧
    (patchTodo [demoTodo] "a1" demoPatchBody "2024-01-02T00:00:00Z").2.map
      Todo.priority = [none] := by
  refine ⟨rfl, by decide, rfl, by decide⟩

/-- C5: in every state reachable from the empty store under a monotone clock,
every stored record satisfies `createdAt ≤ updatedAt`: creation sets the two
equal, and every mutating endpoint stamps `updatedAt` with the current time,
which is no earlier than the record's `createdAt`. -/
theorem c5_createdAt_le_updatedAt {t : String} {s : List Todo}
    (h : Reachable t s) : ∀ x ∈ s, x.createdAt ≤ x.updatedAt :=
  fun x hx => (reachable_storeInv h x hx).1

/-- C5 witness: a concrete reachable state (one create at `2024-01-01…`). -/
theorem c5_createdAt_le_updatedAt_witness :
    ({ id := "id1", title := "alpha", description := none, status := .pending
       createdAt := "2024-01-01T00:00:00Z", updatedAt := "2024-01-01T00:00:00Z"
       dueDate := none, priority := none } : Todo).createdAt ≤
    ({ id := "id1", title := "alpha", description := none, status := .pending
       createdAt := "2024-01-01T00:00:00Z", updatedAt := "2024-01-01T00:00:00Z"
       dueDate := none, priority := none } : Todo).updatedAt :=
  c5_createdAt_le_updatedAt
    (Reachable.step (.createOp demoCreateBody "id1")
      (Reachable.init "2024-01-01T00:00:00Z") (le_refl _))
    _ (by decide)

/-- C6: for a stored todo and a valid patch, PATCH rewrites exactly the found
slot with the merged record; the merge keeps `id` and `createdAt`, stamps
`updatedAt = now`, and under a monotone clock (`updatedAt ≤ now`) the new
`updatedAt` never decreases. -/
theorem c6_patch_preserves_id_createdAt (todos : List Todo)
    (id body now idx current patch)
    (hidx : findIndex (fun t => t.id == id) todos = some idx)
    (hget : todos.get? idx = some current)
    (hparse : parseUpdate body = some patch) :
    patchTodo todos id body now =
      (.ok (applyPatch current patch now),
       todos.set idx (applyPatch current patch now)) ∧
    (applyPatch current patch now).id = current.id ∧
    (applyPatch current patch now).createdAt = current.createdAt ∧
    (applyPatch current patch now).updatedAt = now ∧
    (current.updatedAt ≤ now →
      current.updatedAt ≤ (applyPatch current patch now).updatedAt) := by
  rw [List.get?_eq_getElem?] at hget
  exact ⟨by simp [patchTodo, hidx, hparse, hget], rfl, rfl, rfl, fun h => h⟩

/-- C6 witness: the concrete patch `« title: 'beta' »` on `demoTodo`. -/
theorem c6_patch_preserves_id_createdAt_witness :
    patchTodo [demoTodo] "a1" demoPatchBody "2024-01-02T00:00:00Z" =
      (.ok (applyPatch demoTodo demoPatch "2024-01-02T00:00:00Z"),
       ([demoTodo] : List Todo).set 0
         (applyPatch demoTodo demoPatch "2024-01-02T00:00:00Z")) ∧
    (applyPatch demoTodo demoPatch "2024-01-02T00:00:00Z").id = demoTodo.id ∧
    (applyPatch demoTodo demoPatch "2024-01-02T00:00:00Z").createdAt =
      demoTodo.createdAt ∧
    (applyPatch demoTodo demoPatch "2024-01-02T00:00:00Z").updatedAt =
      "2024-01-02T00:00:00Z" ∧
    (demoTodo.updatedAt ≤ "2024-01-02T00:00:00Z" →
      demoTodo.updatedAt ≤
        (applyPatch demoTodo demoPatch "2024-01-02T00:00:00Z").updatedAt) :=
  c6_patch_preserves_id_createdAt [demoTodo] "a1" demoPatchBody
    "2024-01-02T00:00:00Z" 0 demoTodo demoPatch (by decide) (by decide)
    (by decide)

/-- C7: a validation failure on POST, PATCH or PUT leaves the store exactly as
it was (POST and PUT additionally signal 400), and a not-found id on PATCH,
the status shortcuts or DELETE leaves the store unchanged as well, because the
not-found check precedes any mutation. -/
theorem c7_rejected_requests_leave_store_unchanged (todos : List Todo)
    (id freshId now : String) (body : RawBody) (st : Status) :
    (parseCreate body = none →
      createTodo todos body freshId now = (.badRequest, todos)) ∧
    (parseUpdate body = none → (patchTodo todos id body now).2 = todos) ∧
    (parsePut body = none → putTodo todos id body now = (.badRequest, todos)) ∧
    (findIndex (fun t => t.id == id) todos = none →
      patchTodo todos id body now = (.notFound, todos) ∧
      setStatusTodo todos id st now = (.notFound, todos) ∧
      deleteTodo todos id = (.notFound, todos)) := by
  refine ⟨fun h => by simp [createTodo, h], fun h => ?_,
    fun h => by simp [putTodo, h], fun h => ?_⟩
  · cases hf : findIndex (fun t => t.id == id) todos with
    | none => simp [patchTodo, hf]
    | some idx => simp [patchTodo, hf, h]
  · exact ⟨by simp [patchTodo, h], by simp [setStatusTodo, h],
      by simp [deleteTodo, h]⟩

/-- C7 witness: the invalid body `« title: '' »` and the unknown id `zzz`
against the one-record store `[demoTodo]`. -/
theorem c7_rejected_requests_leave_store_unchanged_witness :
    createTodo [demoTodo] badBody "id9" "2024-01-03T00:00:00Z" =
      (.badRequest, [demoTodo]) ∧
    (patchTodo [demoTodo] "a1" badBody "2024-01-03T00:00:00Z").2 = [demoTodo] ∧
    putTodo [demoTodo] "a1" badBody "2024-01-03T00:00:00Z" =
      (.badRequest, [demoTodo]) ∧
    deleteTodo [demoTodo] "zzz" = (.notFound, [demoTodo]) :=
  ⟨(c7_rejected_requests_leave_store_unchanged [demoTodo] "a1" "id9"
      "2024-01-03T00:00:00Z" badBody .pending).1 (by decide),
   (c7_rejected_requests_leave_store_unchanged [demoTodo] "a1" "id9"
      "2024-01-03T00:00:00Z" badBody .pending).2.1 (by decide),
   (c7_rejected_requests_leave_store_unchanged [demoTodo] "a1" "id9"
      "2024-01-03T00:00:00Z" badBody .pending).2.2.1 (by decide),
   ((c7_rejected_requests_leave_store_unchanged [demoTodo] "zzz" "id9"
      "2024-01-03T00:00:00Z" badBody .pending).2.2.2 (by decide)).2.2⟩

/-- C9: when no stored record carries the requested id, PATCH answers
not-found and leaves the store unchanged for *every* body — the body is never
validated because `findIndex` runs first. -/
theorem c9_patch_not_found_checked_before_validation (todos : List Todo)
    (id now : String) (body : RawBody) (h : ∀ t ∈ todos, t.id ≠ id) :
    patchTodo todos id body now = (.notFound, todos) := by
  have hf : findIndex (fun t => t.id == id) todos = none := by
    rw [findIndex_eq_none_iff]
    intro t ht
    simpa using h t ht
  simp [patchTodo, hf]

/-- C9 witness: an id absent from the store together with a body that would
fail validation (`title: ''`) still yields bare not-found. -/
theorem c9_patch_not_found_checked_before_validation_witness :
    parseUpdate badBody = none ∧
    patchTodo [demoTodo] "zzz" badBody "2024-01-02T00:00:00Z" =
      (.notFound, [demoTodo]) :=
  ⟨by decide,
   c9_patch_not_found_checked_before_validation [demoTodo] "zzz"
     "2024-01-02T00:00:00Z" badBody (by decide)⟩

/-- C8: DELETE on an absent id answers not-found and changes nothing; on a
present id it removes exactly the first record carrying the id and returns it;
and when the id occurs at most once (as for ids the API itself assigns),
deleting it twice succeeds once and then answers not-found. -/
theorem c8_delete_twice (todos : List Todo) (id : String) :
    ((∀ t ∈ todos, t.id ≠ id) → deleteTodo todos id = (.notFound, todos)) ∧
    (∀ (idx : Nat) (r : Todo),
      findIndex (fun t => t.id == id) todos = some idx →
      todos.get? idx = some r →
      deleteTodo todos id = (.ok r, todos.eraseIdx idx) ∧ r.id = id ∧
      (todos.countP (fun t => t.id == id) ≤ 1 →
        deleteTodo (todos.eraseIdx idx) id =
          (.notFound, todos.eraseIdx idx))) := by
  constructor
  · intro h
    have hf : findIndex (fun t => t.id == id) todos = none := by
      rw [findIndex_eq_none_iff]
      intro t ht
      simpa using h t ht
    simp [deleteTodo, hf]
  · intro idx r hidx hget
    have hget2 := hget
    rw [List.get?_eq_getElem?] at hget2
    refine ⟨by simp [deleteTodo, hidx, hget2], ?_, fun hc => ?_⟩
    · obtain ⟨r', hr', hp⟩ := findIndex_get? hidx
      rw [hget] at hr'
      cases hr'
      simpa using hp
    · have hf := findIndex_eraseIdx_none hidx hc
      simp [deleteTodo, hf]

/-- C8 witness: deleting `a1` from `[demoTodo]` returns `demoTodo`, and
deleting it again from the emptied store answers not-found. -/
theorem c8_delete_twice_witness :
    deleteTodo [demoTodo] "a1" = (.ok demoTodo, ([demoTodo] : List Todo).eraseIdx 0) ∧
    demoTodo.id = "a1" ∧
    deleteTodo (([demoTodo] : List Todo).eraseIdx 0) "a1" =
      (.notFound, ([demoTodo] : List Todo).eraseIdx 0) :=
  ⟨((c8_delete_twice [demoTodo] "a1").2 0 demoTodo (by decide) (by decide)).1,
   ((c8_delete_twice [demoTodo] "a1").2 0 demoTodo (by decide) (by decide)).2.1,
   ((c8_delete_twice [demoTodo] "a1").2 0 demoTodo (by decide) (by decide)).2.2
     (by decide)⟩

/-- C4: a valid PUT body on an absent id appends a record that carries the
supplied id, all validated fields, and `createdAt = updatedAt = now`, signalled
201; on a present id it overwrites the found slot with a record keeping only
`id` and `createdAt` from the stored one and stamping `updatedAt = now`,
signalled 200. -/
theorem c4_put_creates_or_replaces (todos : List Todo) (id now : String)
    (body : RawBody) (input : PutInput) (hparse : parsePut body = some input) :
    (findIndex (fun t => t.id == id) todos = none →
      ∃ t, putTodo todos id body now = (.created t, todos ++ [t]) ∧
        t.id = id ∧ t.createdAt = now ∧ t.updatedAt = now ∧
        t.title = input.title ∧ t.description = input.description ∧
        t.status = input.status ∧ t.dueDate = input.dueDate ∧
        t.priority = input.priority) ∧
    (∀ (idx : Nat) (current : Todo),
      findIndex (fun t => t.id == id) todos = some idx →
      todos.get? idx = some current →
      ∃ t, putTodo todos id body now = (.replaced t, todos.set idx t) ∧
        t.id = current.id ∧ t.createdAt = current.createdAt ∧
        t.updatedAt = now ∧
        t.title = input.title ∧ t.description = input.description ∧
        t.status = input.status ∧ t.dueDate = input.dueDate ∧
        t.priority = input.priority) := by
  constructor
  · intro h
    refine ⟨{ id := id, title := input.title, description := input.description
              status := input.status, createdAt := now, updatedAt := now
              dueDate := input.dueDate, priority := input.priority },
      by simp [putTodo, hparse, h], rfl, rfl, rfl, rfl, rfl, rfl, rfl, rfl⟩
  · intro idx current hidx hget
    rw [List.get?_eq_getElem?] at hget
    refine ⟨{ id := current.id, title := input.title
              description := input.description, status := input.status
              createdAt := current.createdAt, updatedAt := now
              dueDate := input.dueDate, priority := input.priority },
      by simp [putTodo, hparse, hidx, hget], rfl, rfl, rfl, rfl, rfl, rfl,
      rfl, rfl⟩

/-- C4 witness: `PUT` with body `« title: 'alpha' »` on the empty store
creates; the same `PUT` on `[demoTodo]` at id `a1` replaces. -/
theorem c4_put_creates_or_replaces_witness :
    (∃ t, putTodo [] "n1" demoCreateBody "2024-01-05T00:00:00Z" =
        (.created t, [] ++ [t]) ∧
      t.id = "n1" ∧ t.createdAt = "2024-01-05T00:00:00Z" ∧
      t.updatedAt = "2024-01-05T00:00:00Z" ∧
      t.title = "alpha" ∧ t.description = none ∧
      t.status = .pending ∧ t.dueDate = none ∧ t.priority = none) ∧
    (∃ t, putTodo [demoTodo] "a1" demoCreateBody "2024-01-05T00:00:00Z" =
        (.replaced t, ([demoTodo] : List Todo).set 0 t) ∧
      t.id = demoTodo.id ∧ t.createdAt = demoTodo.createdAt ∧
      t.updatedAt = "2024-01-05T00:00:00Z" ∧
      t.title = "alpha" ∧ t.description = none ∧
      t.status = .pending ∧ t.dueDate = none ∧ t.priority = none) :=
  ⟨(c4_put_creates_or_replaces [] "n1" "2024-01-05T00:00:00Z" demoCreateBody
      ⟨"alpha", none, none, none, .pending⟩ (by decide)).1 (by decide),
   (c4_put_creates_or_replaces [demoTodo] "a1" "2024-01-05T00:00:00Z"
      demoCreateBody ⟨"alpha", none, none, none, .pending⟩ (by decide)).2 0
      demoTodo (by decide) (by decide)⟩

/-- C10: serving `GET /todos` leaves the stored collection exactly as it was
(the pipeline works on a shallow copy), and every record in the returned page
is one of the stored records, unmutated. -/
theorem c10_query_leaves_store_unchanged (todos : List Todo)
    (query : ListQuery) :
    (getTodosHandler todos query).2 = todos ∧
    ∀ t ∈ (getTodosHandler todos query).1.data, t ∈ todos := by
  refine ⟨rfl, fun t ht => ?_⟩
  simp only [getTodosHandler, queryTodos, pageSlice] at ht
  have h1 := List.mem_of_mem_drop (List.mem_of_mem_take ht)
  have h2 := (List.mem_mergeSort).mp h1
  exact (filterTodos_sublist query todos).subset h2

/-- C10 witness: the default query over the one-record store. -/
theorem c10_query_leaves_store_unchanged_witness :
    (getTodosHandler [demoTodo] demoQuery).2 = [demoTodo] ∧
    demoTodo ∈ [demoTodo] :=
  ⟨(c10_query_leaves_store_unchanged [demoTodo] demoQuery).1,
   (c10_query_leaves_store_unchanged [demoTodo] demoQuery).2 demoTodo
     (by simp [getTodosHandler, queryTodos, pageSlice, sortTodos, filterTodos,
       filterQ, filterStatus, filterPriority, demoQuery])⟩

/-- C3: the envelope of `GET /todos` echoes `page`/`pageSize`, reports
`total` as the filtered count before pagination, returns as `data` the slice
`[(page−1)·pageSize, (page−1)·pageSize + pageSize)` of the sorted filtered
list, and `totalPages` is the ceiling of `total / pageSize` (characterised by
`total ≤ totalPages·pageSize < total + pageSize`); with no filters `total` is
the collection size, and the page slices for pages `1, …, totalPages`
concatenate, in order and without overlap, to the whole sorted list. -/
theorem c3_pagination_envelope (todos : List Todo) (query : ListQuery)
    (_hpage : 1 ≤ query.page) (hps1 : 1 ≤ query.pageSize)
    (_hps2 : query.pageSize ≤ 100) :
    (queryTodos todos query).total = (filterTodos query todos).length ∧
    (queryTodos todos query).data =
      pageSlice (sortTodos query.sortBy query.order (filterTodos query todos))
        query.pageSize query.page ∧
    (queryTodos todos query).page = query.page ∧
    (queryTodos todos query).pageSize = query.pageSize ∧
    (queryTodos todos query).total ≤
      (queryTodos todos query).totalPages * query.pageSize ∧
    (queryTodos todos query).totalPages * query.pageSize <
      (queryTodos todos query).total + query.pageSize ∧
    (query.q = none → query.status = none → query.priority = none →
      (queryTodos todos query).total = todos.length) ∧
    (List.range (queryTodos todos query).totalPages).flatMap
      (fun p => pageSlice (sortTodos query.sortBy query.order
        (filterTodos query todos)) query.pageSize (p + 1)) =
      sortTodos query.sortBy query.order (filterTodos query todos) := by
  have hlen : (queryTodos todos query).total =
      (filterTodos query todos).length := by
    simp [queryTodos, sortTodos]
  have htp : (queryTodos todos query).totalPages =
      ((queryTodos todos query).total + query.pageSize - 1) /
        query.pageSize := rfl
  obtain ⟨hc1, hc2⟩ :=
    ceil_bounds (queryTodos todos query).total query.pageSize hps1
  refine ⟨hlen, rfl, rfl, rfl, ?_, ?_, ?_, ?_⟩
  · rw [htp]
    exact hc1
  · rw [htp]
    exact hc2
  · intro hq hs hp
    rw [hlen]
    simp [filterTodos, filterQ, filterStatus, filterPriority, hq, hs, hp]
  · rw [flatMap_pageSlice]
    apply List.take_of_length_le
    show (queryTodos todos query).total ≤ _
    rw [htp]
    exact hc1

/-- C3 witness: the default query over the one-record store. -/
theorem c3_pagination_envelope_witness :
    (queryTodos [demoTodo] demoQuery).total =
      (filterTodos demoQuery [demoTodo]).length ∧
    (queryTodos [demoTodo] demoQuery).data =
      pageSlice (sortTodos demoQuery.sortBy demoQuery.order
        (filterTodos demoQuery [demoTodo])) demoQuery.pageSize demoQuery.page ∧
    (queryTodos [demoTodo] demoQuery).page = demoQuery.page ∧
    (queryTodos [demoTodo] demoQuery).pageSize = demoQuery.pageSize ∧
    (queryTodos [demoTodo] demoQuery).total ≤
      (queryTodos [demoTodo] demoQuery).totalPages * demoQuery.pageSize ∧
    (queryTodos [demoTodo] demoQuery).totalPages * demoQuery.pageSize <
      (queryTodos [demoTodo] demoQuery).total + demoQuery.pageSize ∧
    (demoQuery.q = none → demoQuery.status = none → demoQuery.priority = none →
      (queryTodos [demoTodo] demoQuery).total = ([demoTodo] : List Todo).length) ∧
    (List.range (queryTodos [demoTodo] demoQuery).totalPages).flatMap
      (fun p => pageSlice (sortTodos demoQuery.sortBy demoQuery.order
        (filterTodos demoQuery [demoTodo])) demoQuery.pageSize (p + 1)) =
      sortTodos demoQuery.sortBy demoQuery.order
        (filterTodos demoQuery [demoTodo]) :=
  c3_pagination_envelope [demoTodo] demoQuery (by decide) (by decide)
    (by decide)

/-- C2: in the sorted output of `GET /todos`, (1) a record missing the sort
field is never followed by one that has it — nulls go last for `asc` and
`desc` alike; (2) between two records that have the field, the earlier one's
value is `≤` the later one's (numerically for `priority`, as strings for the
timestamp fields) when `order = asc`, and `≥` when `order = desc`; (3) in
particular sorting by `priority` ascending puts every record with no priority
strictly after every record that has one. -/
theorem c2_sort_nulls_last_and_order (l : List Todo) :
    (∀ (sb : SortBy) (ord : SortOrder) (i j : Nat) (a b : Todo),
      i < j →
      (sortTodos sb ord l).get? i = some a →
      (sortTodos sb ord l).get? j = some b →
      hasSortVal sb a = false → hasSortVal sb b = false) ∧
    (∀ (sb : SortBy) (ord : SortOrder) (i j : Nat) (a b : Todo)
      (va vb : SVal),
      i < j →
      (sortTodos sb ord l).get? i = some a →
      (sortTodos sb ord l).get? j = some b →
      getSortVal sb a = some va → getSortVal sb b = some vb →
      svalLe ord va vb) ∧
    (∀ (i j : Nat) (a b : Todo),
      (sortTodos .priority .asc l).get? i = some a →
      (sortTodos .priority .asc l).get? j = some b →
      a.priority = none → (b.priority).isSome → j < i) := by
  have key : ∀ (sb : SortBy) (ord : SortOrder) (i j : Nat) (a b : Todo),
      i < j →
      (sortTodos sb ord l).get? i = some a →
      (sortTodos sb ord l).get? j = some b →
      cmpTodos sb ord a b ≤ 0 := by
    intro sb ord i j a b hij ha hb
    rw [List.get?_eq_getElem?] at ha hb
    obtain ⟨hi, rfl⟩ := List.getElem?_eq_some_iff.mp ha
    obtain ⟨hj, rfl⟩ := List.getElem?_eq_some_iff.mp hb
    have := List.pairwise_iff_getElem.mp (sortTodos_pairwise sb ord l)
      i j hi hj hij
    simpa only [leTodos, decide_eq_true_eq] using this
  refine ⟨?_, ?_, ?_⟩
  · intro sb ord i j a b hij ha hb hna
    have hle := key sb ord i j a b hij ha hb
    have hga : getSortVal sb a = none := by
      rcases h : getSortVal sb a with _ | v
      · rfl
      · rw [hasSortVal, h] at hna
        simp at hna
    rcases h : getSortVal sb b with _ | v
    · simp [hasSortVal, h]
    · rw [cmpTodos, hga, h] at hle
      simp [cmpOptSVal] at hle
  · intro sb ord i j a b va vb hij ha hb hva hvb
    have hle := key sb ord i j a b hij ha hb
    rw [cmpTodos, hva, hvb] at hle
    simp only [cmpOptSVal] at hle
    cases va with
    | num x =>
      cases vb with
      | num y =>
        cases ord with
        | asc =>
          simp only [cmpSVal, dirOf, mul_one] at hle
          simp only [svalLe]
          omega
        | desc =>
          simp only [cmpSVal, dirOf, mul_neg_one, neg_nonpos] at hle
          simp only [svalLe]
          omega
      | str y => simp [svalLe]
    | str x =>
      cases vb with
      | num y => simp [svalLe]
      | str y =>
        cases ord with
        | asc =>
          simp only [dirOf, mul_one] at hle
          simpa only [svalLe] using (cmpSVal_str_le_iff x y).mp hle
        | desc =>
          simp only [dirOf, mul_neg_one, neg_nonpos] at hle
          simpa only [svalLe] using (cmpSVal_str_ge_iff x y).mp hle
  · intro i j a b ha hb hna hsb
    obtain ⟨y, hy⟩ := Option.isSome_iff_exists.mp hsb
    rcases Nat.lt_trichotomy i j with h | rfl | h
    · exfalso
      have hle := key .priority .asc i j a b h ha hb
      rw [cmpTodos] at hle
      simp only [getSortVal, hna, hy, Option.map_none', Option.map_some']
        at hle
      simp [cmpOptSVal] at hle
    · rw [ha] at hb
      injection hb with hb
      rw [hb, hy] at hna
      cases hna
    · exact h

/-- The witness store `demoList` is already in priority-ascending order, so
the stable sort returns it unchanged. -/
theorem demoList_priority_asc_sorted :
    sortTodos .priority .asc demoList = demoList :=
  List.mergeSort_of_sorted (by decide)

/-- C2 witness: in `sortTodos priority asc demoList`, position 0 (priority 1)
and position 1 (priority 3) are ordered numerically, and the record with no
priority at position 2 comes after the one at position 0. -/
theorem c2_sort_nulls_last_and_order_witness :
    svalLe .asc (SVal.num 1) (SVal.num 3) ∧ (0 : Nat) < 2 :=
  ⟨(c2_sort_nulls_last_and_order demoList).2.1 .priority .asc 0 1 demoA demoB
      (SVal.num 1) (SVal.num 3) (by decide)
      (by rw [demoList_priority_asc_sorted]; rfl)
      (by rw [demoList_priority_asc_sorted]; rfl)
      (by decide) (by decide),
   (c2_sort_nulls_last_and_order demoList).2.2 2 0 demoC demoA
      (by rw [demoList_priority_asc_sorted]; rfl)
      (by rw [demoList_priority_asc_sorted]; rfl)
      (by decide) (by decide)⟩

end TodoApi
